import Mathlib

/-!
Shallow embedding of `src/server.js` (Hyperliquid WS → n8n webhook relay).

JS values that flow through the relay (parsed JSON messages, fill records,
normalized events) are modelled by the inductive `J` below.  Booleans do not
occur in any code path the claims touch, so `J` has constructors for `null`,
strings, (natural-)numbers, arrays and objects.  JS `undefined` (absent
property) is folded into `J.null`: both are falsy, and both compare unequal
to every string under strict equality, which is all the relay ever does with
them.

Numbers are modelled as `Nat`: every number the relay manipulates is a
millisecond timestamp (`Date.now()`, `fill.time`, TTL arithmetic), and the
only arithmetic is subtraction-and-compare, where JS "negative difference"
and `Nat` truncated subtraction fall on the same side of every comparison
made by the code (`x - y > TTL` and `x - y < TTL` with `TTL > 0`).
-/

namespace HLRelay

inductive J where
  | null
  | str (s : String)
  | num (n : Nat)
  | arr (elems : List J)
  | obj (fields : List (String × J))

/-- JS truthiness for the values of `J`:
`null`/`undefined`, the empty string and `0` are falsy. -/
def truthy : J → Bool
  | J.null => false
  | J.str s => s != ""
  | J.num n => n != 0
  | J.arr _ => true
  | J.obj _ => true

/-- Property read `v[k]`.  Object fields are kept as an insertion-ordered
list in which a later entry for the same key shadows an earlier one (this is
how object-spread and property assignment are modelled below), so the read
takes the last matching entry.  Reads on non-objects yield `J.null`
(JS gives `undefined` for the named properties the relay reads). -/
def jget (v : J) (k : String) : J :=
  match v with
  | J.obj fs => fs.foldl (fun acc p => if p.1 = k then p.2 else acc) J.null
  | _ => J.null

/-- Property assignment `v[k] = w`, modelled by appending the new binding
(the last binding wins in `jget`).  Call sites in the relay only ever assign
to objects. -/
def jset (v : J) (k : String) (w : J) : J :=
  match v with
  | J.obj fs => J.obj (fs ++ [(k, w)])
  | _ => v

/-- The field list of an object (empty for non-objects). -/
def jfields : J → List (String × J)
  | J.obj fs => fs
  | _ => []

def isArr : J → Bool
  | J.arr _ => true
  | _ => false

/-- The elements of an array value (empty for non-arrays). -/
def jitems : J → List J
  | J.arr xs => xs
  | _ => []

/-- JS strict equality `v === s` against a string literal. -/
def jeqStr (v : J) (s : String) : Bool :=
  match v with
  | J.str t => t == s
  | _ => false

/-- JS `String.prototype.toLowerCase` (the relay only lowercases ASCII hex
addresses). -/
def jsToLower (s : String) : String :=
  String.mk (s.data.map Char.toLower)

mutual

/-- JS stringification as performed by `Array.prototype.join`: strings stay
themselves, numbers print in decimal, arrays join their elements with `,`,
objects print as `[object Object]`.  Only the string and number cases are
reachable from the relay's key fields. -/
def jstr : J → String
  | J.null => "null"
  | J.str s => s
  | J.num n => toString n
  | J.arr xs => String.intercalate "," (jstrList xs)
  | J.obj _ => "[object Object]"

def jstrList : List J → List String
  | [] => []
  | x :: xs => jstr x :: jstrList xs

end

/-- JS `a || b` on relay values. -/
def jsOrJ (a b : J) : J :=
  if truthy a then a else b

/-- Numeric coercion used for `Math.max(_, f.time)`.  Fill times in the
claims are numbers; other shapes coerce to `0` here. -/
def jnum : J → Nat
  | J.num n => n
  | _ => 0

/-- `SEEN_TTL_MS = 60 * 60 * 1000` from server.js line 37. -/
def SEEN_TTL_MS : Nat := 60 * 60 * 1000

/-- `Array.prototype.join` with separator bar, as used on line 54. -/
def joinBar : List String → String
  | [] => ""
  | [x] => x
  | x :: y :: rest => x ++ "|" ++ joinBar (y :: rest)

/-- `eventKey` from server.js lines 45-55: the dedup fingerprint, eight
alias-resolved fields joined with the separator bar. -/
def eventKey (evt : J) : String :=
  let a := jsToLower (jstr (jsOrJ (jget evt "address")
      (jsOrJ (jget evt "user") (jsOrJ (jget evt "wallet") (J.str "")))))
  let t := jsOrJ (jget evt "time")
      (jsOrJ (jget evt "timestamp") (jsOrJ (jget evt "ts") (J.num 0)))
  let h := jsOrJ (jget evt "txHash") (jsOrJ (jget evt "hash") (J.str ""))
  let oid := jsOrJ (jget evt "orderId") (jsOrJ (jget evt "cloid") (J.str ""))
  let c := jsOrJ (jget evt "coin")
      (jsOrJ (jget evt "symbol") (jsOrJ (jget evt "asset") (J.str "")))
  let k := jsOrJ (jget evt "kind")
      (jsOrJ (jget evt "type") (jsOrJ (jget evt "eventType") (J.str "")))
  let px := jsOrJ (jget evt "px") (jsOrJ (jget evt "price") (J.str ""))
  let sz := jsOrJ (jget evt "sz") (jsOrJ (jget evt "size") (J.str ""))
  joinBar [a, jstr h, jstr oid, jstr t, jstr k, jstr c, jstr px, jstr sz]

/-- Lookup in a JS `Map` modelled as a key-value list (the relay's `seen`
and `lastTs` maps).  `Map` keys are unique, so first-match lookup agrees
with the map semantics on every state the relay builds. -/
def mget : List (String × Nat) → String → Option Nat
  | [], _ => none
  | p :: rest, a => if p.1 = a then some p.2 else mget rest a

/-- `Map.set`: overwrite the entry in place when the key is present,
otherwise append a fresh entry. -/
def mapSet (m : List (String × Nat)) (k : String) (v : Nat) :
    List (String × Nat) :=
  if (mget m k).isSome then
    m.map (fun p => if p.1 = k then (k, v) else p)
  else m ++ [(k, v)]

/-- `gcSeen` from server.js lines 38-43: delete every entry with
`now - ts > SEEN_TTL_MS`. -/
def gcSeen (now : Nat) (m : List (String × Nat)) : List (String × Nat) :=
  m.filter (fun p => now - p.2 ≤ SEEN_TTL_MS)

/-- `shouldEmit` from server.js lines 57-65, with the call to `Date.now()`
passed in as `now`.  Returns the emit decision and the updated `seen` map.
The `key = ""` test mirrors `if (!key) return true` (the only falsy string
is the empty one). -/
def shouldEmit (evt : J) (now : Nat) (m : List (String × Nat)) :
    Bool × List (String × Nat) :=
  let key := eventKey evt
  if key = "" then (true, m)
  else
    match mget m key with
    | some prev =>
        if prev ≠ 0 ∧ now - prev < SEEN_TTL_MS then (false, m)
        else (true, mapSet m key now)
    | none => (true, mapSet m key now)

/-- Outcome of one `fetch` call made by `emitToN8N`: either an HTTP response
(status plus the text read from the body) or a network-level failure that
makes the awaited promise reject. -/
inductive FetchResult where
  | response (status : Nat) (body : String)
  | netError (msg : String)

/-- The body of the `try` block in `emitToN8N` (server.js lines 69-78):
a network failure propagates as an exception, a response is examined via
`res.ok` (status 200-299) and a non-2xx status logs the first 500 characters
of the body.  The returned value is the list of produced log lines. -/
def emitBody : FetchResult → Except String (List String)
  | FetchResult.response status body =>
      if 200 ≤ status ∧ status < 300 then Except.ok []
      else Except.ok ["[webhook] non-200 " ++ toString status ++ " " ++
        (body.take 500)]
  | FetchResult.netError m => Except.error m

/-- `emitToN8N` from server.js lines 68-82: the whole body is wrapped in
`try/catch`, so the function always returns normally; a caught exception
only produces a log line. -/
def emitToN8N (r : FetchResult) : List String :=
  match emitBody r with
  | Except.ok logs => logs
  | Except.error m => ["[webhook] error " ++ m]

/-- The JSON body posted to the webhook:
`(source: ..., receivedAt: ..., event: ...)`. -/
structure Envelope where
  source : String
  receivedAt : Nat
  event : J

/-- JS `for (const x of v)` over a value of unknown shape: arrays yield
their elements, strings yield their one-character substrings, anything else
throws a TypeError. -/
def jiter : J → Except String (List J)
  | J.arr xs => Except.ok xs
  | J.str s => Except.ok (s.data.map (fun c => J.str (String.mk [c])))
  | _ => Except.error "not iterable"

/-- Object-spread with one leading literal field, as in
`(kind: 'fill', ...f)`: the literal binding comes first, so a same-named
field of `f` shadows it.  Spreading a non-object contributes no named
fields (numbers and null spread to nothing; the index keys contributed by
strings are never read back by the relay). -/
def spread1 (k : String) (v : J) (f : J) : J :=
  J.obj ((k, v) :: jfields f)

/-- The payload-building dispatch of the `ws.on('message')` handler
(server.js lines 149-167), checked in source order.  The result is the list
of normalized event candidates, or an exception when the code iterates a
truthy non-iterable `events`/`updates` value (which the handler's `catch`
turns into a dropped message). -/
def normalize (msg : J) : Except String (List J) :=
  match msg with
  | J.arr xs => Except.ok xs
  | _ =>
    if truthy msg && truthy (jget msg "fills") && isArr (jget msg "fills") then
      Except.ok ((jitems (jget msg "fills")).map (spread1 "kind" (J.str "fill")))
    else if truthy msg && truthy (jget msg "fill") then
      Except.ok [spread1 "kind" (J.str "fill") (jget msg "fill")]
    else if truthy msg && (truthy (jget msg "event") || truthy (jget msg "events")) then
      match (if truthy (jget msg "events") then jiter (jget msg "events")
             else Except.ok [jget msg "event"]) with
      | Except.error e => Except.error e
      | Except.ok es => Except.ok (es.map (spread1 "kind" (J.str "event")))
    else if truthy msg && (truthy (jget msg "update") || truthy (jget msg "updates")) then
      match (if truthy (jget msg "updates") then jiter (jget msg "updates")
             else Except.ok [jget msg "update"]) with
      | Except.error e => Except.error e
      | Except.ok us => Except.ok (us.map (spread1 "kind" (J.str "ledger")))
    else if truthy msg && truthy (jget msg "type") &&
        (jeqStr (jget msg "type") "pong" || jeqStr (jget msg "method") "pong") then
      Except.ok []
    else
      Except.ok [spread1 "kind" (J.str "raw") msg]

/-- The subscription-ack test of server.js line 144:
`msg && msg.subscription && msg.channel`. -/
def ackMsg (msg : J) : Bool :=
  truthy msg && truthy (jget msg "subscription") && truthy (jget msg "channel")

/-- The address backfill of server.js line 170:
`if (!p.address && (p.user || p.wallet)) p.address = p.user || p.wallet`. -/
def fixAddress (p : J) : J :=
  if !truthy (jget p "address") && (truthy (jget p "user") || truthy (jget p "wallet")) then
    jset p "address" (jsOrJ (jget p "user") (jget p "wallet"))
  else p

/-- One iteration of the delivery loop of server.js lines 169-173:
backfill the address, consult the dedup cache, and emit an envelope tagged
`source: 'hyperliquid-ws'` when the event is not a duplicate. -/
def streamStep (now : Nat) (acc : List (String × Nat) × List Envelope)
    (p : J) : List (String × Nat) × List Envelope :=
  let p2 := fixAddress p
  let r := shouldEmit p2 now acc.1
  if r.1 then (r.2, acc.2 ++ [⟨"hyperliquid-ws", now, p2⟩])
  else (r.2, acc.2)

/-- The delivery loop of server.js lines 169-173 over the normalized
payloads. -/
def streamLoop (now : Nat) (ps : List J) (m0 : List (String × Nat)) :
    List (String × Nat) × List Envelope :=
  ps.foldl (streamStep now) (m0, [])

/-- One run of the `ws.on('message')` handler (server.js lines 138-179) on
an already-parsed message: subscription acks return early, a normalization
exception is caught with the cache untouched, and otherwise the delivery
loop runs and `gcSeen` sweeps the cache afterwards. -/
def processStreamMessage (msg : J) (now : Nat) (seen : List (String × Nat)) :
    List (String × Nat) × List Envelope :=
  if ackMsg msg then (seen, [])
  else
    match normalize msg with
    | Except.error _ => (seen, [])
    | Except.ok ps =>
        let r := streamLoop now ps seen
        (gcSeen now r.1, r.2)

/-- The mutable state shared by the two paths: the dedup cache `seen` and
the per-address watermark map `lastTs` (server.js lines 36 and 198). -/
structure PollState where
  seen : List (String × Nat)
  lastTs : List (String × Nat)

/-- The fill tagging of server.js lines 213-214:
`f.kind = 'fill'; f.address = addr`. -/
def pollTag (f : J) (addr : String) : J :=
  jset (jset f "kind" (J.str "fill")) "address" (J.str addr)

/-- One iteration of the fill loop of `pollUserFills` (server.js lines
212-218): tag the fill, consult the dedup cache, deliver an envelope tagged
`source: 'hyperliquid-poll'` when it is not a duplicate, then advance the
watermark to the max of its current value and the fill time. -/
def pollFillStep (sink : Envelope → FetchResult) (now : Nat) (addr : String)
    (acc : PollState × List Envelope × List String) (f : J) :
    PollState × List Envelope × List String :=
  let f2 := pollTag f addr
  let se := shouldEmit f2 now acc.1.seen
  if se.1 then
    let env : Envelope := ⟨"hyperliquid-poll", now, f2⟩
    let logs := emitToN8N (sink env)
    let lt :=
      if truthy (jget f2 "time") then
        mapSet acc.1.lastTs addr
          (max ((mget acc.1.lastTs addr).getD 0) (jnum (jget f2 "time")))
      else acc.1.lastTs
    (⟨se.2, lt⟩, acc.2.1 ++ [env], acc.2.2 ++ logs)
  else (⟨se.2, acc.1.lastTs⟩, acc.2.1, acc.2.2)

/-- The watermark lower bound of server.js line 203:
`lastTs.get(addr) || (now - 5 * 60 * 1000)` (a stored zero is falsy and
falls back to the five-minute lookback). -/
def pollSince (now : Nat) (lastTs : List (String × Nat)) (addr : String) :
    Nat :=
  match mget lastTs addr with
  | some v => if v ≠ 0 then v else now - 5 * 60 * 1000
  | none => now - 5 * 60 * 1000

/-- The fill-list extraction of server.js lines 210-212:
`Array.isArray(data) ? data : (data.fills || [])`, iterated by
`for (const f of fills)` — a truthy non-iterable `fills` value makes that
loop throw (caught by the per-address try). -/
def pollFills (data : J) : Except String (List J) :=
  if isArr data then Except.ok (jitems data)
  else if truthy (jget data "fills") then jiter (jget data "fills")
  else Except.ok []

/-- The fill loop of server.js lines 212-218 followed by the idle-account
watermark seeding of line 219: when zero fills were returned and the
address still has no watermark, the watermark is seeded to `since`. -/
def pollProcess (sink : Envelope → FetchResult) (now : Nat) (addr : String)
    (since : Nat) (fills : List J) (st : PollState) :
    PollState × List Envelope × List String :=
  let r := fills.foldl (pollFillStep sink now addr) (st, [], [])
  if fills.length = 0 ∧ (mget r.1.lastTs addr).isNone then
    (⟨r.1.seen, mapSet r.1.lastTs addr since⟩, r.2.1, r.2.2)
  else r

/-- One per-address iteration of `pollUserFills` (server.js lines 202-223).
`resp` is the outcome of the `/info` query: `Except.error` for a rejected
fetch (the per-address `catch`), `Except.ok data` for the decoded JSON body
(a decode failure is already folded to an empty object by
`res.json().catch(() => (\x7b\x7d))`).  `sink` gives the webhook's response
to each delivered envelope.  Returns the updated state, the delivered
envelopes, and the log lines. -/
def pollAccount (sink : Envelope → FetchResult) (now : Nat) (addr : String)
    (resp : Except String J) (st : PollState) :
    PollState × List Envelope × List String :=
  match resp with
  | Except.error m => (st, [], ["[poll] " ++ addr ++ " " ++ m])
  | Except.ok data =>
    match pollFills data with
    | Except.error m => (st, [], ["[poll] " ++ addr ++ " " ++ m])
    | Except.ok fills =>
        pollProcess sink now addr (pollSince now st.lastTs addr) fills st

/-- One full cycle of `pollUserFills` (the `for (const addr of ADDRESSES)`
loop): each configured address is processed in turn against the shared
state. -/
def pollCycle (sink : Envelope → FetchResult) (now : Nat)
    (queries : List (String × Except String J)) (st : PollState) :
    PollState × List Envelope × List String :=
  queries.foldl (fun acc q =>
    let r := pollAccount sink now q.1 q.2 acc.1
    (r.1, acc.2.1 ++ r.2.1, acc.2.2 ++ r.2.2)) (st, [], [])

/-! Basic lemmas about the map, cache and object-field operations. -/

theorem foldl_preserves {α β : Type} (P : β → Prop) (f : β → α → β)
    (hstep : ∀ b a, P b → P (f b a)) :
    ∀ (l : List α) (b : β), P b → P (l.foldl f b) := by
  intro l
  induction l with
  | nil => intro b hb; exact hb
  | cons x xs ih => intro b hb; exact ih (f b x) (hstep b x hb)

theorem mget_append (m1 m2 : List (String × Nat)) (k : String) :
    mget (m1 ++ m2) k =
      match mget m1 k with
      | some v => some v
      | none => mget m2 k := by
  induction m1 with
  | nil => simp [mget]
  | cons p rest ih =>
      by_cases h : p.1 = k <;> simp [mget, h, ih]

theorem mget_map_overwrite (m : List (String × Nat)) (k : String) (v : Nat)
    (h : (mget m k).isSome) :
    mget (m.map (fun p => if p.1 = k then (k, v) else p)) k = some v := by
  induction m with
  | nil => simp [mget] at h
  | cons p rest ih =>
      by_cases hp : p.1 = k
      · simp [mget, hp]
      · simp [mget, hp] at h ⊢
        exact ih h

theorem mget_mapSet_self (m : List (String × Nat)) (k : String) (v : Nat) :
    mget (mapSet m k v) k = some v := by
  unfold mapSet
  by_cases h : (mget m k).isSome
  · simp [h, mget_map_overwrite m k v h]
  · simp [h, mget_append]
    cases hm : mget m k with
    | none => simp [mget]
    | some w => simp [hm] at h

theorem mget_map_overwrite_ne (m : List (String × Nat)) (k k2 : String)
    (v : Nat) (h : k2 ≠ k) :
    mget (m.map (fun p => if p.1 = k then (k, v) else p)) k2 = mget m k2 := by
  induction m with
  | nil => rfl
  | cons p rest ih =>
      obtain ⟨pk, pv⟩ := p
      by_cases hp : pk = k
      · subst hp
        simp [mget, Ne.symm h, ih]
      · by_cases hp2 : pk = k2 <;> simp [mget, hp, hp2, ih, h]

theorem mget_mapSet_ne (m : List (String × Nat)) (k k2 : String) (v : Nat)
    (h : k2 ≠ k) : mget (mapSet m k v) k2 = mget m k2 := by
  unfold mapSet
  by_cases hs : (mget m k).isSome
  · rw [if_pos hs]
    exact mget_map_overwrite_ne m k k2 v h
  · rw [if_neg hs, mget_append]
    cases hm : mget m k2 with
    | some w => rfl
    | none => simp [mget, Ne.symm h]

theorem keys_map_overwrite (m : List (String × Nat)) (k : String) (v : Nat) :
    (m.map (fun p => if p.1 = k then (k, v) else p)).map Prod.fst =
      m.map Prod.fst := by
  have hfst : ∀ p : String × Nat, (if p.1 = k then (k, v) else p).1 = p.1 := by
    intro p
    by_cases hp : p.1 = k <;> simp [hp]
  induction m with
  | nil => rfl
  | cons p rest ih =>
      rw [List.map_cons, List.map_cons, List.map_cons, ih, hfst p]

theorem mem_keys_mapSet (m : List (String × Nat)) (k : String) (v : Nat)
    (a : String) (h : a ∈ m.map Prod.fst) :
    a ∈ (mapSet m k v).map Prod.fst := by
  unfold mapSet
  by_cases hs : (mget m k).isSome
  · rw [if_pos hs, keys_map_overwrite]
    exact h
  · rw [if_neg hs, List.map_append]
    exact List.mem_append_left _ h

theorem mem_gcSeen (now : Nat) (m : List (String × Nat)) (p : String × Nat)
    (h : p ∈ gcSeen now m) : now - p.2 ≤ SEEN_TTL_MS := by
  have := List.mem_filter.mp h
  simpa using this.2

theorem shouldEmit_none (evt : J) (now : Nat) (m : List (String × Nat))
    (hk : eventKey evt ≠ "") (h : mget m (eventKey evt) = none) :
    shouldEmit evt now m = (true, mapSet m (eventKey evt) now) := by
  unfold shouldEmit
  rw [if_neg hk, h]

theorem shouldEmit_some (evt : J) (now : Nat) (m : List (String × Nat))
    (prev : Nat) (hk : eventKey evt ≠ "")
    (h : mget m (eventKey evt) = some prev) :
    shouldEmit evt now m =
      if prev ≠ 0 ∧ now - prev < SEEN_TTL_MS then (false, m)
      else (true, mapSet m (eventKey evt) now) := by
  unfold shouldEmit
  rw [if_neg hk, h]

theorem shouldEmit_fst_empty_cache (evt : J) (now : Nat) :
    (shouldEmit evt now []).1 = true := by
  unfold shouldEmit
  by_cases h : eventKey evt = "" <;> simp [h, mget]

theorem shouldEmit_keys (evt : J) (now : Nat) (m : List (String × Nat))
    (a : String) (h : a ∈ m.map Prod.fst) :
    a ∈ (shouldEmit evt now m).2.map Prod.fst := by
  unfold shouldEmit
  by_cases hk : eventKey evt = ""
  · simpa [hk] using h
  · simp [hk]
    cases hm : mget m (eventKey evt) with
    | some prev =>
        by_cases hc : prev ≠ 0 ∧ now - prev < SEEN_TTL_MS
        · simpa [hc] using h
        · simpa [hc] using mem_keys_mapSet m (eventKey evt) now a h
    | none => simpa using mem_keys_mapSet m (eventKey evt) now a h

theorem jget_foldl_no_match (fs : List (String × J)) (k : String) (acc : J)
    (h : k ∉ fs.map Prod.fst) :
    fs.foldl (fun acc p => if p.1 = k then p.2 else acc) acc = acc := by
  induction fs generalizing acc with
  | nil => rfl
  | cons p rest ih =>
      rw [List.map_cons] at h
      have h1 : p.1 ≠ k := fun hc => h (by rw [hc]; exact List.mem_cons_self _ _)
      have h2 : k ∉ rest.map Prod.fst := fun hc => h (List.mem_cons_of_mem _ hc)
      rw [List.foldl_cons, if_neg h1]
      exact ih acc h2

theorem jget_not_mem (fs : List (String × J)) (k : String)
    (h : k ∉ fs.map Prod.fst) : jget (J.obj fs) k = J.null :=
  jget_foldl_no_match fs k J.null h

theorem jget_cons_ne (p : String × J) (fs : List (String × J)) (k : String)
    (h : k ≠ p.1) : jget (J.obj (p :: fs)) k = jget (J.obj fs) k := by
  have h1 : p.1 ≠ k := Ne.symm h
  simp [jget, h1]

theorem jget_append_last (fs : List (String × J)) (k : String) (v : J) :
    jget (J.obj (fs ++ [(k, v)])) k = v := by
  simp [jget, List.foldl_append]

theorem jget_append_ne (fs : List (String × J)) (k k2 : String) (v : J)
    (h : k2 ≠ k) : jget (J.obj (fs ++ [(k, v)])) k2 = jget (J.obj fs) k2 := by
  have h1 : k ≠ k2 := Ne.symm h
  simp [jget, List.foldl_append, h1]

theorem jget_cons_not_mem (fs : List (String × J)) (k : String) (v : J)
    (h : k ∉ fs.map Prod.fst) : jget (J.obj ((k, v) :: fs)) k = v := by
  simp only [jget, List.foldl_cons, if_pos rfl]
  exact jget_foldl_no_match fs k v h

theorem jget_append_two_ne (fs : List (String × J)) (k1 k2 f : String)
    (v1 v2 : J) (h1 : f ≠ k1) (h2 : f ≠ k2) :
    jget (J.obj (fs ++ [(k1, v1), (k2, v2)])) f = jget (J.obj fs) f := by
  have g1 : k1 ≠ f := Ne.symm h1
  have g2 : k2 ≠ f := Ne.symm h2
  simp [jget, List.foldl_append, g1, g2]

theorem jget_append_two_fst (fs : List (String × J)) (k1 k2 : String)
    (v1 v2 : J) (h : k1 ≠ k2) :
    jget (J.obj (fs ++ [(k1, v1), (k2, v2)])) k1 = v1 := by
  have g2 : k2 ≠ k1 := Ne.symm h
  simp [jget, List.foldl_append, g2]

theorem jget_append_two_snd (fs : List (String × J)) (k1 k2 : String)
    (v1 v2 : J) :
    jget (J.obj (fs ++ [(k1, v1), (k2, v2)])) k2 = v2 := by
  simp [jget, List.foldl_append]

theorem jsToLower_eq_empty (s : String) (h : jsToLower s = "") : s = "" := by
  unfold jsToLower at h
  have hd : s.data.map Char.toLower = [] := by
    have := congrArg String.data h
    simpa using this
  cases s with
  | mk data =>
      simp at hd
      simp [hd]

theorem joinBar_cons_cons (x y : String) (rest : List String) :
    joinBar (x :: y :: rest) = x ++ "|" ++ joinBar (y :: rest) := rfl

theorem joinBar_ne_empty (x y : String) (rest : List String) :
    joinBar (x :: y :: rest) ≠ "" := by
  intro h
  have hlen := congrArg String.length h
  rw [joinBar_cons_cons, String.length_append, String.length_append] at hlen
  have h1 : String.length "|" = 1 := rfl
  have h0 : String.length "" = 0 := rfl
  rw [h1, h0] at hlen
  omega

theorem eventKey_ne_empty (evt : J) : eventKey evt ≠ "" := by
  unfold eventKey
  apply joinBar_ne_empty

/-! Claim theorems. -/

/-- Claim C2: the spec states that an event with every fingerprint field
absent always gets `true` from `shouldEmit` (fail-open).  The code disagrees:
for such an event `eventKey` joins eight empty components around the numeric
default `0`, yielding the non-empty key shown below, so the dead
`if (!key)` guard is skipped and ordinary dedup applies: a second call
within the TTL returns `false` and the event is suppressed. -/
theorem C2_empty_fingerprint_dedup :
    eventKey (J.obj []) = "|||0||||" ∧
    eventKey (J.obj []) ≠ "" ∧
    (shouldEmit (J.obj []) 1000 []).1 = true ∧
    (shouldEmit (J.obj []) 2000 (shouldEmit (J.obj []) 1000 []).2).1 = false := by
  refine ⟨by decide, by decide, by decide, by decide⟩

/-- Claim C3: for an event with a non-empty fingerprint, `shouldEmit`
returns `true` on a first call at time `t1`, `false` on a second call
within the TTL, the `false` call leaves the cache untouched (no timestamp
bump), and a call more than one TTL after `t1` returns `true` again.
The hypothesis `t1 ≠ 0` reflects that stored timestamps come from
`Date.now()` and are non-zero (a zero timestamp is falsy and would skip the
duplicate test). -/
theorem C3_dedup_idempotence (evt : J) (t1 t2 t3 : Nat)
    (m : List (String × Nat))
    (hfresh : mget m (eventKey evt) = none)
    (ht1 : t1 ≠ 0)
    (hwin : t2 - t1 < SEEN_TTL_MS)
    (hexp : SEEN_TTL_MS < t3 - t1) :
    (shouldEmit evt t1 m).1 = true ∧
    (shouldEmit evt t2 (shouldEmit evt t1 m).2).1 = false ∧
    (shouldEmit evt t2 (shouldEmit evt t1 m).2).2 = (shouldEmit evt t1 m).2 ∧
    (shouldEmit evt t3 (shouldEmit evt t2 (shouldEmit evt t1 m).2).2).1 = true := by
  have hk : eventKey evt ≠ "" := eventKey_ne_empty evt
  have h1 := shouldEmit_none evt t1 m hk hfresh
  have hl := mget_mapSet_self m (eventKey evt) t1
  have h2 := shouldEmit_some evt t2 (mapSet m (eventKey evt) t1) t1 hk hl
  rw [if_pos ⟨ht1, hwin⟩] at h2
  have h3 := shouldEmit_some evt t3 (mapSet m (eventKey evt) t1) t1 hk hl
  rw [if_neg (by omega : ¬(t1 ≠ 0 ∧ t3 - t1 < SEEN_TTL_MS))] at h3
  simp only [h1, h2, h3]
  exact ⟨trivial, trivial, trivial, trivial⟩

/-- Claim C3 witness: a concrete run with a fresh cache, a user-keyed
event, calls at 1000 and 2000 ms (within the one-hour TTL) and a third call
at 3602000 ms (more than one TTL after the first). -/
theorem C3_dedup_idempotence_witness :
    (shouldEmit (J.obj [("user", J.str "0xa")]) 1000 []).1 = true ∧
    (shouldEmit (J.obj [("user", J.str "0xa")]) 2000
      (shouldEmit (J.obj [("user", J.str "0xa")]) 1000 []).2).1 = false ∧
    (shouldEmit (J.obj [("user", J.str "0xa")]) 2000
      (shouldEmit (J.obj [("user", J.str "0xa")]) 1000 []).2).2 =
      (shouldEmit (J.obj [("user", J.str "0xa")]) 1000 []).2 ∧
    (shouldEmit (J.obj [("user", J.str "0xa")]) 3602000
      (shouldEmit (J.obj [("user", J.str "0xa")]) 2000
        (shouldEmit (J.obj [("user", J.str "0xa")]) 1000 []).2).2).1 = true :=
  C3_dedup_idempotence (J.obj [("user", J.str "0xa")]) 1000 2000 3602000 []
    rfl (by decide) (by decide) (by decide)

theorem streamStep_sources (now : Nat)
    (acc : List (String × Nat) × List Envelope) (p : J)
    (h : ∀ s ∈ acc.2.map Envelope.source, s = "hyperliquid-ws") :
    ∀ s ∈ (streamStep now acc p).2.map Envelope.source,
      s = "hyperliquid-ws" := by
  intro s hs
  simp only [streamStep] at hs
  split at hs
  · rw [List.map_append] at hs
    rcases List.mem_append.mp hs with hl | hr
    · exact h s hl
    · simpa using hr
  · exact h s hs

theorem streamLoop_sources (now : Nat) (ps : List J)
    (m0 : List (String × Nat)) :
    ∀ s ∈ (streamLoop now ps m0).2.map Envelope.source,
      s = "hyperliquid-ws" := by
  refine foldl_preserves
    (fun acc => ∀ s ∈ acc.2.map Envelope.source, s = "hyperliquid-ws")
    (streamStep now) (fun b a hb => streamStep_sources now b a hb) ps
    (m0, []) ?_
  intro s hs
  simp at hs

theorem pollFillStep_sources (sink : Envelope → FetchResult) (now : Nat)
    (addr : String) (acc : PollState × List Envelope × List String) (f : J)
    (h : ∀ s ∈ acc.2.1.map Envelope.source, s = "hyperliquid-poll") :
    ∀ s ∈ (pollFillStep sink now addr acc f).2.1.map Envelope.source,
      s = "hyperliquid-poll" := by
  intro s hs
  simp only [pollFillStep] at hs
  split at hs
  · rw [List.map_append] at hs
    rcases List.mem_append.mp hs with hl | hr
    · exact h s hl
    · simpa using hr
  · exact h s hs

theorem pollAccount_err (sink : Envelope → FetchResult) (now : Nat)
    (addr : String) (m : String) (st : PollState) :
    pollAccount sink now addr (Except.error m) st =
      (st, [], ["[poll] " ++ addr ++ " " ++ m]) := rfl

theorem pollAccount_ok (sink : Envelope → FetchResult) (now : Nat)
    (addr : String) (data : J) (st : PollState) :
    pollAccount sink now addr (Except.ok data) st =
      match pollFills data with
      | Except.error m => (st, [], ["[poll] " ++ addr ++ " " ++ m])
      | Except.ok fills =>
          pollProcess sink now addr (pollSince now st.lastTs addr) fills st :=
  rfl

theorem pollProcess_sources (sink : Envelope → FetchResult) (now : Nat)
    (addr : String) (since : Nat) (fills : List J) (st : PollState) :
    ∀ s ∈ (pollProcess sink now addr since fills st).2.1.map Envelope.source,
      s = "hyperliquid-poll" := by
  intro s hs
  have hbase : ∀ s ∈ (List.map Envelope.source
      ((st, ([] : List Envelope), ([] : List String)).2.1)),
      s = "hyperliquid-poll" := by
    intro s2 hs2
    simp at hs2
  have hfold := foldl_preserves
    (fun acc => ∀ s ∈ acc.2.1.map Envelope.source, s = "hyperliquid-poll")
    (pollFillStep sink now addr)
    (fun b a hb => pollFillStep_sources sink now addr b a hb) fills
    (st, [], []) hbase
  simp only [pollProcess] at hs
  split at hs
  · exact hfold s hs
  · exact hfold s hs

theorem pollAccount_sources (sink : Envelope → FetchResult) (now : Nat)
    (addr : String) (resp : Except String J) (st : PollState) :
    ∀ s ∈ (pollAccount sink now addr resp st).2.1.map Envelope.source,
      s = "hyperliquid-poll" := by
  intro s hs
  cases resp with
  | error m => rw [pollAccount_err] at hs; simp at hs
  | ok data =>
      rw [pollAccount_ok] at hs
      cases hf : pollFills data with
      | error m => rw [hf] at hs; simp at hs
      | ok fills =>
          rw [hf] at hs
          exact pollProcess_sources sink now addr _ fills st s hs

/-- Claim C4 counterexample: the claim says envelopes carry
`source: "stream"` and `source: "poll"`.  The code tags them
`'hyperliquid-ws'` and `'hyperliquid-poll'` instead, as this concrete run
of each path shows. -/
theorem C4_source_mismatch :
    (processStreamMessage (J.obj [("fills", J.arr [J.obj [("time", J.num 5)]])])
      1000 []).2.map Envelope.source = ["hyperliquid-ws"] ∧
    (pollAccount (fun _ => FetchResult.response 200 "ok") 1000000 "0xa"
      (Except.ok (J.arr [J.obj [("time", J.num 100)]])) ⟨[], []⟩).2.1.map
      Envelope.source = ["hyperliquid-poll"] ∧
    "hyperliquid-ws" ≠ "stream" ∧ "hyperliquid-poll" ≠ "poll" := by
  refine ⟨by decide, by decide, by decide, by decide⟩

/-- Claim C4 amended: every envelope delivered by the stream path carries
`source = "hyperliquid-ws"` and every envelope delivered by the polling
fallback carries `source = "hyperliquid-poll"` (distinct constants
identifying the producing path, but not the literals "stream"/"poll" the
claim names). -/
theorem C4_source_tags :
    (∀ (msg : J) (now : Nat) (seen : List (String × Nat)) (s : String),
      s ∈ (processStreamMessage msg now seen).2.map Envelope.source →
        s = "hyperliquid-ws") ∧
    (∀ (sink : Envelope → FetchResult) (now : Nat) (addr : String)
      (resp : Except String J) (st : PollState) (s : String),
      s ∈ (pollAccount sink now addr resp st).2.1.map Envelope.source →
        s = "hyperliquid-poll") := by
  constructor
  · intro msg now seen s hs
    unfold processStreamMessage at hs
    split at hs
    · simp at hs
    · split at hs
      · simp at hs
      · exact streamLoop_sources now _ seen s hs
  · intro sink now addr resp st s hs
    exact pollAccount_sources sink now addr resp st s hs

/-- Claim C4 amended witness: concrete runs of both paths, with the
produced envelope source in each delivered list. -/
theorem C4_source_tags_witness :
    ("hyperliquid-ws" ∈
      (processStreamMessage (J.obj [("fills", J.arr [J.obj [("time", J.num 5)]])])
        1000 []).2.map Envelope.source) ∧
    ("hyperliquid-poll" ∈
      (pollAccount (fun _ => FetchResult.response 200 "ok") 1000000 "0xa"
        (Except.ok (J.arr [J.obj [("time", J.num 100)]])) ⟨[], []⟩).2.1.map
        Envelope.source) ∧
    "hyperliquid-ws" = "hyperliquid-ws" ∧
    "hyperliquid-poll" = "hyperliquid-poll" :=
  ⟨by decide, by decide,
    C4_source_tags.1 (J.obj [("fills", J.arr [J.obj [("time", J.num 5)]])])
      1000 [] "hyperliquid-ws" (by decide),
    C4_source_tags.2 (fun _ => FetchResult.response 200 "ok") 1000000 "0xa"
      (Except.ok (J.arr [J.obj [("time", J.num 100)]])) ⟨[], []⟩
      "hyperliquid-poll" (by decide)⟩

theorem pollFillStep_keys (sink : Envelope → FetchResult) (now : Nat)
    (addr : String) (acc : PollState × List Envelope × List String) (f : J)
    (a : String) (h : a ∈ acc.1.seen.map Prod.fst) :
    a ∈ (pollFillStep sink now addr acc f).1.seen.map Prod.fst := by
  simp only [pollFillStep]
  split
  · exact shouldEmit_keys _ now acc.1.seen a h
  · exact shouldEmit_keys _ now acc.1.seen a h

theorem pollProcess_keys (sink : Envelope → FetchResult) (now : Nat)
    (addr : String) (since : Nat) (fills : List J) (st : PollState)
    (a : String) (h : a ∈ st.seen.map Prod.fst) :
    a ∈ (pollProcess sink now addr since fills st).1.seen.map Prod.fst := by
  have hfold := foldl_preserves
    (fun acc => a ∈ acc.1.seen.map Prod.fst)
    (pollFillStep sink now addr)
    (fun b f hb => pollFillStep_keys sink now addr b f a hb) fills
    (st, [], []) h
  simp only [pollProcess]
  split
  · exact hfold
  · exact hfold

theorem pollAccount_keys (sink : Envelope → FetchResult) (now : Nat)
    (addr : String) (resp : Except String J) (st : PollState) (a : String)
    (h : a ∈ st.seen.map Prod.fst) :
    a ∈ (pollAccount sink now addr resp st).1.seen.map Prod.fst := by
  cases resp with
  | error m => rw [pollAccount_err]; exact h
  | ok data =>
      rw [pollAccount_ok]
      cases hf : pollFills data with
      | error m => exact h
      | ok fills => exact pollProcess_keys sink now addr _ fills st a h

/-- Claim C5 counterexample: the claim says the garbage-collection sweep is
also triggered from every cycle of the Polling Fallback.  It is not: a full
poll cycle at time 3600002 leaves the expired entry `("k", 1)` (age
3600001 ms, above the one-hour TTL) in the cache, while an actual sweep at
that time would remove it. -/
theorem C5_poll_no_sweep :
    (pollCycle (fun _ => FetchResult.response 200 "ok") 3600002
      [("0xa", Except.ok (J.arr []))] ⟨[("k", 1)], []⟩).1.seen = [("k", 1)] ∧
    gcSeen 3600002 [("k", 1)] = [] := by
  refine ⟨by decide, by decide⟩

/-- Claim C5 amended: the sweep runs after each successfully processed
non-ack message batch on the stream path (afterwards every cache entry is
at most one TTL old), while the polling fallback never sweeps: a poll pass
only ever keeps or adds cache keys, removing none. -/
theorem C5_sweep_on_stream_only :
    (∀ (msg : J) (now : Nat) (seen : List (String × Nat)) (ps : List J),
      ackMsg msg = false → normalize msg = Except.ok ps →
      ∀ p ∈ (processStreamMessage msg now seen).1, now - p.2 ≤ SEEN_TTL_MS) ∧
    (∀ (sink : Envelope → FetchResult) (now : Nat) (addr : String)
      (resp : Except String J) (st : PollState) (a : String),
      a ∈ st.seen.map Prod.fst →
      a ∈ (pollAccount sink now addr resp st).1.seen.map Prod.fst) := by
  constructor
  · intro msg now seen ps hack hnorm p hp
    unfold processStreamMessage at hp
    rw [if_neg (by simp [hack]), hnorm] at hp
    exact mem_gcSeen now _ p hp
  · intro sink now addr resp st a h
    exact pollAccount_keys sink now addr resp st a h

/-- Claim C5 amended witness: a concrete non-ack fills message whose
processing leaves only fresh entries, and a concrete poll pass that keeps
the pre-existing cache key. -/
theorem C5_sweep_on_stream_only_witness :
    (ackMsg (J.obj [("fills", J.arr [J.obj [("time", J.num 5)]])]) = false) ∧
    (normalize (J.obj [("fills", J.arr [J.obj [("time", J.num 5)]])]) =
      Except.ok [J.obj [("kind", J.str "fill"), ("time", J.num 5)]]) ∧
    (("|||5|fill|||", 1000) ∈
      (processStreamMessage (J.obj [("fills", J.arr [J.obj [("time", J.num 5)]])])
        1000 []).1) ∧
    (1000 - 1000 ≤ SEEN_TTL_MS) ∧
    ("k" ∈ (⟨[("k", 1)], []⟩ : PollState).seen.map Prod.fst) ∧
    ("k" ∈ (pollAccount (fun _ => FetchResult.response 200 "ok") 3600002 "0xa"
      (Except.ok (J.arr [])) ⟨[("k", 1)], []⟩).1.seen.map Prod.fst) :=
  ⟨by decide, rfl, by decide,
    C5_sweep_on_stream_only.1 (J.obj [("fills", J.arr [J.obj [("time", J.num 5)]])])
      1000 [] [J.obj [("kind", J.str "fill"), ("time", J.num 5)]]
      (by decide) rfl ("|||5|fill|||", 1000) (by decide),
    by decide,
    C5_sweep_on_stream_only.2 (fun _ => FetchResult.response 200 "ok") 3600002
      "0xa" (Except.ok (J.arr [])) ⟨[("k", 1)], []⟩ "k" (by decide)⟩

theorem pollFillStep_watermark (sink : Envelope → FetchResult) (now : Nat)
    (addr : String) (acc : PollState × List Envelope × List String) (f : J)
    (w : Nat) (h : mget acc.1.lastTs addr = some w) :
    ∃ w2, mget (pollFillStep sink now addr acc f).1.lastTs addr = some w2 ∧
      w ≤ w2 := by
  simp only [pollFillStep]
  split
  · split
    · rw [h]
      simp only [Option.getD_some]
      exact ⟨_, mget_mapSet_self _ addr _, Nat.le_max_left w _⟩
    · exact ⟨w, h, Nat.le_refl w⟩
  · exact ⟨w, h, Nat.le_refl w⟩

theorem pollProcess_watermark (sink : Envelope → FetchResult) (now : Nat)
    (addr : String) (since : Nat) (fills : List J) (st : PollState)
    (w0 : Nat) (h : mget st.lastTs addr = some w0) :
    ∃ w1, mget (pollProcess sink now addr since fills st).1.lastTs addr =
      some w1 ∧ w0 ≤ w1 := by
  have hfold := foldl_preserves
    (fun acc => ∃ w, mget acc.1.lastTs addr = some w ∧ w0 ≤ w)
    (pollFillStep sink now addr)
    (fun b f hb => by
      obtain ⟨w, hw, hle⟩ := hb
      obtain ⟨w2, hw2, hle2⟩ := pollFillStep_watermark sink now addr b f w hw
      exact ⟨w2, hw2, Nat.le_trans hle hle2⟩) fills
    (st, [], []) ⟨w0, h, Nat.le_refl w0⟩
  simp only [pollProcess]
  split
  · rename_i hcond
    obtain ⟨w, hw, hle⟩ := hfold
    rw [hw] at hcond
    simp at hcond
  · exact hfold

theorem pollAccount_watermark (sink : Envelope → FetchResult) (now : Nat)
    (addr : String) (resp : Except String J) (st : PollState) (w0 : Nat)
    (h : mget st.lastTs addr = some w0) :
    ∃ w1, mget (pollAccount sink now addr resp st).1.lastTs addr = some w1 ∧
      w0 ≤ w1 := by
  cases resp with
  | error m => rw [pollAccount_err]; exact ⟨w0, h, Nat.le_refl w0⟩
  | ok data =>
      rw [pollAccount_ok]
      cases hf : pollFills data with
      | error m => exact ⟨w0, h, Nat.le_refl w0⟩
      | ok fills => exact pollProcess_watermark sink now addr _ fills st w0 h

theorem pollFillStep_lastTs_other (sink : Envelope → FetchResult) (now : Nat)
    (a2 : String) (acc : PollState × List Envelope × List String) (f : J)
    (addr : String) (hne : addr ≠ a2) :
    mget (pollFillStep sink now a2 acc f).1.lastTs addr =
      mget acc.1.lastTs addr := by
  simp only [pollFillStep]
  split
  · split
    · exact mget_mapSet_ne _ a2 addr _ hne
    · rfl
  · rfl

theorem pollProcess_lastTs_other (sink : Envelope → FetchResult) (now : Nat)
    (a2 : String) (since : Nat) (fills : List J) (st : PollState)
    (addr : String) (hne : addr ≠ a2) :
    mget (pollProcess sink now a2 since fills st).1.lastTs addr =
      mget st.lastTs addr := by
  have hfold := foldl_preserves
    (fun acc => mget acc.1.lastTs addr = mget st.lastTs addr)
    (pollFillStep sink now a2)
    (fun b f hb =>
      (pollFillStep_lastTs_other sink now a2 b f addr hne).trans hb)
    fills (st, [], []) rfl
  simp only [pollProcess]
  split
  · exact (mget_mapSet_ne _ a2 addr since hne).trans hfold
  · exact hfold

theorem pollAccount_lastTs_other (sink : Envelope → FetchResult) (now : Nat)
    (a2 : String) (resp : Except String J) (st : PollState) (addr : String)
    (hne : addr ≠ a2) :
    mget (pollAccount sink now a2 resp st).1.lastTs addr =
      mget st.lastTs addr := by
  cases resp with
  | error m => rw [pollAccount_err]
  | ok data =>
      rw [pollAccount_ok]
      cases hf : pollFills data with
      | error m => rfl
      | ok fills => exact pollProcess_lastTs_other sink now a2 _ fills st addr hne

theorem pollCycle_watermark (sink : Envelope → FetchResult) (now : Nat)
    (queries : List (String × Except String J)) (st : PollState)
    (addr : String) (w0 : Nat) (h : mget st.lastTs addr = some w0) :
    ∃ w1, mget (pollCycle sink now queries st).1.lastTs addr = some w1 ∧
      w0 ≤ w1 := by
  unfold pollCycle
  refine foldl_preserves
    (fun (acc : PollState × List Envelope × List String) =>
      ∃ w, mget acc.1.lastTs addr = some w ∧ w0 ≤ w)
    _ ?_ queries (st, [], []) ⟨w0, h, Nat.le_refl w0⟩
  intro b q hb
  obtain ⟨w, hw, hle⟩ := hb
  show ∃ w1, mget (pollAccount sink now q.1 q.2 b.1).1.lastTs addr =
    some w1 ∧ w0 ≤ w1
  by_cases hq : addr = q.1
  · subst hq
    obtain ⟨w2, hw2, hle2⟩ := pollAccount_watermark sink now q.1 q.2 b.1 w hw
    exact ⟨w2, hw2, Nat.le_trans hle hle2⟩
  · rw [pollAccount_lastTs_other sink now q.1 q.2 b.1 addr hq]
    exact ⟨w, hw, hle⟩

/-- Claim C6: the per-account watermark is monotonic.  Whenever a watermark
is recorded for an account, any per-account poll pass and any full poll
cycle only ever move it forward (the code advances it to
`max(current, fill.time)` for each delivered fill and never otherwise
rewrites it); and a cycle over fills with times 100, 50, 200 against a
fresh state leaves the watermark at 200. -/
theorem C6_watermark_monotone :
    (∀ (sink : Envelope → FetchResult) (now : Nat) (addr : String)
      (resp : Except String J) (st : PollState) (w0 : Nat),
      mget st.lastTs addr = some w0 →
      ∃ w1, mget (pollAccount sink now addr resp st).1.lastTs addr = some w1 ∧
        w0 ≤ w1) ∧
    (∀ (sink : Envelope → FetchResult) (now : Nat)
      (queries : List (String × Except String J)) (st : PollState)
      (addr : String) (w0 : Nat),
      mget st.lastTs addr = some w0 →
      ∃ w1, mget (pollCycle sink now queries st).1.lastTs addr = some w1 ∧
        w0 ≤ w1) ∧
    (mget (pollAccount (fun _ => FetchResult.response 200 "ok") 1000000 "0xa"
      (Except.ok (J.arr [J.obj [("time", J.num 100)], J.obj [("time", J.num 50)],
        J.obj [("time", J.num 200)]])) ⟨[], []⟩).1.lastTs "0xa" = some 200) := by
  refine ⟨?_, ?_, by decide⟩
  · intro sink now addr resp st w0 h
    exact pollAccount_watermark sink now addr resp st w0 h
  · intro sink now queries st addr w0 h
    exact pollCycle_watermark sink now queries st addr w0 h

/-- Claim C6 witness: a state holding watermark 120 for the account is not
regressed by a poll pass returning an older fill (time 50). -/
theorem C6_watermark_monotone_witness :
    (mget (⟨[], [("0xa", 120)]⟩ : PollState).lastTs "0xa" = some 120) ∧
    (∃ w1, mget (pollAccount (fun _ => FetchResult.response 200 "ok") 1000000
      "0xa" (Except.ok (J.arr [J.obj [("time", J.num 50)]]))
      ⟨[], [("0xa", 120)]⟩).1.lastTs "0xa" = some w1 ∧ 120 ≤ w1) ∧
    (∃ w1, mget (pollCycle (fun _ => FetchResult.response 200 "ok") 1000000
      [("0xa", Except.ok (J.arr [J.obj [("time", J.num 50)]]))]
      ⟨[], [("0xa", 120)]⟩).1.lastTs "0xa" = some w1 ∧ 120 ≤ w1) :=
  ⟨by decide,
    C6_watermark_monotone.1 (fun _ => FetchResult.response 200 "ok") 1000000
      "0xa" (Except.ok (J.arr [J.obj [("time", J.num 50)]]))
      ⟨[], [("0xa", 120)]⟩ 120 (by decide),
    C6_watermark_monotone.2.1 (fun _ => FetchResult.response 200 "ok") 1000000
      [("0xa", Except.ok (J.arr [J.obj [("time", J.num 50)]]))]
      ⟨[], [("0xa", 120)]⟩ "0xa" 120 (by decide)⟩

theorem foldl_pair {α β : Type} (f g : β → α → β) (R : β → β → Prop)
    (hstep : ∀ b1 b2 a, R b1 b2 → R (f b1 a) (g b2 a)) :
    ∀ (l : List α) (b1 b2 : β), R b1 b2 → R (l.foldl f b1) (l.foldl g b2) := by
  intro l
  induction l with
  | nil => intro b1 b2 h; exact h
  | cons x xs ih => intro b1 b2 h; exact ih _ _ (hstep b1 b2 x h)

theorem pollFillStep_sink_state (sink1 sink2 : Envelope → FetchResult)
    (now : Nat) (addr : String)
    (acc1 acc2 : PollState × List Envelope × List String) (f : J)
    (h1 : acc1.1 = acc2.1) (h2 : acc1.2.1 = acc2.2.1) :
    (pollFillStep sink1 now addr acc1 f).1 =
      (pollFillStep sink2 now addr acc2 f).1 ∧
    (pollFillStep sink1 now addr acc1 f).2.1 =
      (pollFillStep sink2 now addr acc2 f).2.1 := by
  simp only [pollFillStep]
  rw [h1, h2]
  split <;> exact ⟨rfl, rfl⟩

theorem pollProcess_sink_state (sink1 sink2 : Envelope → FetchResult)
    (now : Nat) (addr : String) (since : Nat) (fills : List J)
    (st : PollState) :
    (pollProcess sink1 now addr since fills st).1 =
      (pollProcess sink2 now addr since fills st).1 ∧
    (pollProcess sink1 now addr since fills st).2.1 =
      (pollProcess sink2 now addr since fills st).2.1 := by
  obtain ⟨hst, henv⟩ := foldl_pair
    (pollFillStep sink1 now addr) (pollFillStep sink2 now addr)
    (fun b1 b2 => b1.1 = b2.1 ∧ b1.2.1 = b2.2.1)
    (fun b1 b2 f hb =>
      pollFillStep_sink_state sink1 sink2 now addr b1 b2 f hb.1 hb.2)
    fills (st, [], []) (st, [], []) ⟨rfl, rfl⟩
  simp only [pollProcess]
  rw [hst, henv]
  split
  · exact ⟨rfl, rfl⟩
  · exact ⟨hst, henv⟩

theorem pollAccount_sink_state (sink1 sink2 : Envelope → FetchResult)
    (now : Nat) (addr : String) (resp : Except String J) (st : PollState) :
    (pollAccount sink1 now addr resp st).1 =
      (pollAccount sink2 now addr resp st).1 ∧
    (pollAccount sink1 now addr resp st).2.1 =
      (pollAccount sink2 now addr resp st).2.1 := by
  cases resp with
  | error m => rw [pollAccount_err, pollAccount_err]; exact ⟨rfl, rfl⟩
  | ok data =>
      rw [pollAccount_ok, pollAccount_ok]
      cases hf : pollFills data with
      | error m => exact ⟨rfl, rfl⟩
      | ok fills => exact pollProcess_sink_state sink1 sink2 now addr _ fills st

/-- Claim C9: the webhook client never propagates a failure.  A non-2xx
response is turned into a log line carrying the status and the body
truncated to 500 characters; a network failure makes the inner fetch body
throw (`emitBody` errors) but the surrounding catch converts it into a log
line, so `emitToN8N` returns normally in both cases.  Consequently the poll
path computes the same cache, watermarks and deliveries whatever the sink
answers (only the log output differs).  The stream handler does not consume
the delivery outcome at all, so its state is likewise unaffected. -/
theorem C9_sink_nonfatal :
    (∀ (status : Nat) (body : String), ¬(200 ≤ status ∧ status < 300) →
      emitToN8N (FetchResult.response status body) =
        ["[webhook] non-200 " ++ toString status ++ " " ++ body.take 500]) ∧
    (∀ m : String, emitBody (FetchResult.netError m) = Except.error m ∧
      emitToN8N (FetchResult.netError m) = ["[webhook] error " ++ m]) ∧
    (∀ (sink1 sink2 : Envelope → FetchResult) (now : Nat) (addr : String)
      (resp : Except String J) (st : PollState),
      (pollAccount sink1 now addr resp st).1 =
        (pollAccount sink2 now addr resp st).1 ∧
      (pollAccount sink1 now addr resp st).2.1 =
        (pollAccount sink2 now addr resp st).2.1) := by
  refine ⟨?_, ?_, ?_⟩
  · intro status body h
    simp [emitToN8N, emitBody, h]
  · intro m
    exact ⟨rfl, rfl⟩
  · intro sink1 sink2 now addr resp st
    exact pollAccount_sink_state sink1 sink2 now addr resp st

/-- Claim C9 witness: a 500 response with a body, a concrete network
failure, and a poll pass run against an always-failing sink and an
always-succeeding sink, ending in the same state. -/
theorem C9_sink_nonfatal_witness :
    (emitToN8N (FetchResult.response 500 "boom") =
      ["[webhook] non-200 " ++ toString 500 ++ " " ++ String.take "boom" 500]) ∧
    (emitBody (FetchResult.netError "refused") = Except.error "refused" ∧
      emitToN8N (FetchResult.netError "refused") =
        ["[webhook] error " ++ "refused"]) ∧
    ((pollAccount (fun _ => FetchResult.netError "down") 1000000 "0xa"
        (Except.ok (J.arr [J.obj [("time", J.num 100)]])) ⟨[], []⟩).1 =
      (pollAccount (fun _ => FetchResult.response 200 "ok") 1000000 "0xa"
        (Except.ok (J.arr [J.obj [("time", J.num 100)]])) ⟨[], []⟩).1 ∧
      (pollAccount (fun _ => FetchResult.netError "down") 1000000 "0xa"
        (Except.ok (J.arr [J.obj [("time", J.num 100)]])) ⟨[], []⟩).2.1 =
      (pollAccount (fun _ => FetchResult.response 200 "ok") 1000000 "0xa"
        (Except.ok (J.arr [J.obj [("time", J.num 100)]])) ⟨[], []⟩).2.1) :=
  ⟨C9_sink_nonfatal.1 500 "boom" (by decide),
    C9_sink_nonfatal.2.1 "refused",
    C9_sink_nonfatal.2.2 (fun _ => FetchResult.netError "down")
      (fun _ => FetchResult.response 200 "ok") 1000000 "0xa"
      (Except.ok (J.arr [J.obj [("time", J.num 100)]])) ⟨[], []⟩⟩

/-- Claim C7 counterexample: the claim says any message indicating pong via
its type or method field is silently consumed.  The code's pong test
requires a truthy `type` field before it even looks at `method`, so the
message with only `method: 'pong'` falls through to the raw
fallback and produces one `kind=raw` event instead of zero events. -/
theorem C7_method_pong_not_consumed :
    normalize (J.obj [("method", J.str "pong")]) =
      Except.ok [J.obj [("kind", J.str "raw"), ("method", J.str "pong")]] ∧
    normalize (J.obj [("method", J.str "pong")]) ≠
      (Except.ok [] : Except String (List J)) := by
  constructor
  · rfl
  · intro h
    have h2 := (show normalize (J.obj [("method", J.str "pong")]) =
      Except.ok [J.obj [("kind", J.str "raw"), ("method", J.str "pong")]]
      from rfl).symm.trans h
    exact List.cons_ne_nil _ _ (Except.ok.inj h2)

/-- Claim C7 amended: a message that reaches the pong test (it is not an
array and matches none of the fills/fill/event/update shapes) and passes it
— which requires a truthy `type` field together with `type === 'pong'` or
`method === 'pong'` — produces zero events.  A message whose only pong
indication is `method` (with no truthy `type`) is not consumed and becomes
a `kind=raw` event instead. -/
theorem C7_pong_consumed (msg : J)
    (harr : isArr msg = false)
    (g1 : (truthy msg && truthy (jget msg "fills") &&
      isArr (jget msg "fills")) = false)
    (g2 : (truthy msg && truthy (jget msg "fill")) = false)
    (g3 : (truthy msg && (truthy (jget msg "event") ||
      truthy (jget msg "events"))) = false)
    (g4 : (truthy msg && (truthy (jget msg "update") ||
      truthy (jget msg "updates"))) = false)
    (gp : (truthy msg && truthy (jget msg "type") &&
      (jeqStr (jget msg "type") "pong" ||
        jeqStr (jget msg "method") "pong")) = true) :
    normalize msg = Except.ok [] := by
  cases msg with
  | arr xs => simp [isArr] at harr
  | null => simp [truthy] at gp
  | str s => simp [jget, truthy] at gp
  | num n => simp [jget, truthy] at gp
  | obj fs => simp [normalize, g1, g2, g3, g4, gp]

/-- Claim C7 amended witness: the plain `type: 'pong'` keepalive reply is
consumed without producing events. -/
theorem C7_pong_consumed_witness :
    normalize (J.obj [("type", J.str "pong")]) = Except.ok [] :=
  C7_pong_consumed (J.obj [("type", J.str "pong")]) (by decide) (by decide)
    (by decide) (by decide) (by decide) (by decide)

/-- Claim C8 counterexample: the claim says every element of a `fills`
array becomes an event with `kind = "fill"` while preserving all original
fields.  The spread `(kind: 'fill', ...f)` lets a `kind` field of the
element shadow the tag, so an element carrying `kind: 'cancel'` produces an
event whose kind reads `'cancel'`, not `'fill'`. -/
theorem C8_kind_not_fill :
    normalize (J.obj [("fills", J.arr [J.obj [("kind", J.str "cancel")]])]) =
      Except.ok [J.obj [("kind", J.str "fill"), ("kind", J.str "cancel")]] ∧
    jget (J.obj [("kind", J.str "fill"), ("kind", J.str "cancel")]) "kind" =
      J.str "cancel" ∧
    J.str "cancel" ≠ J.str "fill" := by
  refine ⟨rfl, rfl, ?_⟩
  intro h
  injection h with h2
  exact absurd h2 (by decide)

/-- Claim C8 amended: every message (of whatever other shape) whose
`fills` field is an array yields exactly one event per element (the
element spread onto a `kind: 'fill'` tag); the event's kind reads `"fill"`
whenever the element itself carries no `kind` field (an element's own
`kind` shadows the tag), and every other original field of the element is
preserved. -/
theorem C8_fills_normalization (msg : J) (elems : List J)
    (harr : isArr msg = false)
    (hf : jget msg "fills" = J.arr elems) :
    normalize msg =
      Except.ok (elems.map (spread1 "kind" (J.str "fill"))) ∧
    (∀ fl : List (String × J), "kind" ∉ fl.map Prod.fst →
      jget (spread1 "kind" (J.str "fill") (J.obj fl)) "kind" =
        J.str "fill") ∧
    (∀ (fl : List (String × J)) (k : String), k ≠ "kind" →
      jget (spread1 "kind" (J.str "fill") (J.obj fl)) k =
        jget (J.obj fl) k) := by
  refine ⟨?_, ?_, ?_⟩
  · cases msg with
    | arr xs => simp [isArr] at harr
    | null => simp [jget] at hf
    | str s => simp [jget] at hf
    | num n => simp [jget] at hf
    | obj fs => simp [normalize, hf, truthy, isArr, jitems]
  · intro fl hfl
    exact jget_cons_not_mem fl "kind" (J.str "fill") hfl
  · intro fl k hk
    exact jget_cons_ne ("kind", J.str "fill") fl k hk

/-- Claim C8 amended witness: the message
`(user: '0xa', fills: [(a: 1), (b: 2)], isSnapshot: 'y')`, which carries
other fields besides `fills`, produces two events; the first keeps `a: 1`,
gains `kind: 'fill'`, and nothing else changes. -/
theorem C8_fills_normalization_witness :
    (normalize (J.obj [("user", J.str "0xa"),
        ("fills", J.arr [J.obj [("a", J.num 1)], J.obj [("b", J.num 2)]]),
        ("isSnapshot", J.str "y")]) =
      Except.ok [spread1 "kind" (J.str "fill") (J.obj [("a", J.num 1)]),
        spread1 "kind" (J.str "fill") (J.obj [("b", J.num 2)])]) ∧
    ("kind" ∉ ([("a", J.num 1)] : List (String × J)).map Prod.fst) ∧
    (jget (spread1 "kind" (J.str "fill") (J.obj [("a", J.num 1)])) "kind" =
      J.str "fill") ∧
    ("a" ≠ "kind") ∧
    (jget (spread1 "kind" (J.str "fill") (J.obj [("a", J.num 1)])) "a" =
      jget (J.obj [("a", J.num 1)]) "a") :=
  ⟨(C8_fills_normalization
      (J.obj [("user", J.str "0xa"),
        ("fills", J.arr [J.obj [("a", J.num 1)], J.obj [("b", J.num 2)]]),
        ("isSnapshot", J.str "y")])
      [J.obj [("a", J.num 1)], J.obj [("b", J.num 2)]]
      (by decide) rfl).1,
    by decide,
    (C8_fills_normalization
      (J.obj [("user", J.str "0xa"),
        ("fills", J.arr [J.obj [("a", J.num 1)], J.obj [("b", J.num 2)]]),
        ("isSnapshot", J.str "y")])
      [J.obj [("a", J.num 1)], J.obj [("b", J.num 2)]]
      (by decide) rfl).2.1
      [("a", J.num 1)] (by decide),
    by decide,
    (C8_fills_normalization
      (J.obj [("user", J.str "0xa"),
        ("fills", J.arr [J.obj [("a", J.num 1)], J.obj [("b", J.num 2)]]),
        ("isSnapshot", J.str "y")])
      [J.obj [("a", J.num 1)], J.obj [("b", J.num 2)]]
      (by decide) rfl).2.2
      [("a", J.num 1)] "a" (by decide)⟩

theorem truthy_str_true (s : String) (h : s ≠ "") :
    truthy (J.str s) = true := by
  simp [truthy, h]

theorem truthy_str_false (s : String) (h : s = "") :
    truthy (J.str s) = false := by
  simp [truthy, h]

theorem a_part_str_head (s t : String) (hcase : jsToLower s = jsToLower t)
    (r : J) :
    jsToLower (jstr (jsOrJ (J.str s) r)) =
      jsToLower (jstr (jsOrJ (J.str t) r)) := by
  by_cases hs : s = ""
  · have ht : t = "" := jsToLower_eq_empty t (by rw [← hcase, hs]; rfl)
    rw [hs, ht]
  · have ht : t ≠ "" := fun hteq =>
      hs (jsToLower_eq_empty s (by rw [hcase, hteq]; rfl))
    rw [show jsOrJ (J.str s) r = J.str s from by
        simp [jsOrJ, truthy_str_true s hs],
      show jsOrJ (J.str t) r = J.str t from by
        simp [jsOrJ, truthy_str_true t ht]]
    exact hcase

theorem a_part_str_mid (s t : String) (hcase : jsToLower s = jsToLower t)
    (x r : J) :
    jsToLower (jstr (jsOrJ x (jsOrJ (J.str s) r))) =
      jsToLower (jstr (jsOrJ x (jsOrJ (J.str t) r))) := by
  by_cases hx : truthy x
  · rw [show jsOrJ x (jsOrJ (J.str s) r) = x from by simp [jsOrJ, hx],
      show jsOrJ x (jsOrJ (J.str t) r) = x from by simp [jsOrJ, hx]]
  · rw [show jsOrJ x (jsOrJ (J.str s) r) = jsOrJ (J.str s) r from by
        simp [jsOrJ, hx],
      show jsOrJ x (jsOrJ (J.str t) r) = jsOrJ (J.str t) r from by
        simp [jsOrJ, hx]]
    exact a_part_str_head s t hcase r

theorem a_part_str_last (s t : String) (hcase : jsToLower s = jsToLower t)
    (x1 x2 : J) :
    jsToLower (jstr (jsOrJ x1 (jsOrJ x2 (jsOrJ (J.str s) (J.str ""))))) =
      jsToLower (jstr (jsOrJ x1 (jsOrJ x2 (jsOrJ (J.str t) (J.str ""))))) := by
  by_cases hx : truthy x1
  · rw [show jsOrJ x1 (jsOrJ x2 (jsOrJ (J.str s) (J.str ""))) = x1 from by
        simp [jsOrJ, hx],
      show jsOrJ x1 (jsOrJ x2 (jsOrJ (J.str t) (J.str ""))) = x1 from by
        simp [jsOrJ, hx]]
  · rw [show jsOrJ x1 (jsOrJ x2 (jsOrJ (J.str s) (J.str ""))) =
        jsOrJ x2 (jsOrJ (J.str s) (J.str "")) from by simp [jsOrJ, hx],
      show jsOrJ x1 (jsOrJ x2 (jsOrJ (J.str t) (J.str ""))) =
        jsOrJ x2 (jsOrJ (J.str t) (J.str "")) from by simp [jsOrJ, hx]]
    exact a_part_str_mid s t hcase x2 (J.str "")

/-- Claim C10: the fingerprint is case-insensitive in the address.  Two
events identical except for the letter-case of the string supplied in
`address`, `user`, or `wallet` (same lowering, as the code's
`toLowerCase` defines case-equivalence) yield the same `eventKey`, so a
mixed-case stream event and a poll fill tagged with the lowercased
configured address dedup against each other. -/
theorem C10_address_case_insensitive (l : List (String × J)) (k s t : String)
    (hk : k = "address" ∨ k = "user" ∨ k = "wallet")
    (hcase : jsToLower s = jsToLower t) :
    eventKey (jset (J.obj l) k (J.str s)) =
      eventKey (jset (J.obj l) k (J.str t)) := by
  rcases hk with hk | hk | hk <;> subst hk
  · simp [eventKey, jset, jget_append_last, jget_append_ne,
      a_part_str_head s t hcase]
  · simp [eventKey, jset, jget_append_last, jget_append_ne,
      a_part_str_mid s t hcase]
  · simp [eventKey, jset, jget_append_last, jget_append_ne,
      a_part_str_last s t hcase]

/-- Claim C10 witness: a mixed-case and a lowercase user value produce the
same fingerprint. -/
theorem C10_address_case_insensitive_witness :
    eventKey (jset (J.obj [("time", J.num 7)]) "user" (J.str "0xAbC")) =
      eventKey (jset (J.obj [("time", J.num 7)]) "user" (J.str "0xabc")) :=
  C10_address_case_insensitive [("time", J.num 7)] "user" "0xAbC" "0xabc"
    (Or.inr (Or.inl rfl)) (by decide)

/-- Claim C1 counterexample: the same raw fill (here the featureless fill
`()` for account `0xabc`) observed first by the stream path and then by the
poll path produces different fingerprints — the stream normalizer leaves
`address` empty while the poll path stamps the account in — so the poll
observation is not suppressed and the occurrence is delivered a second time
(one envelope from each path, the second within the TTL of the first). -/
theorem C1_cross_path_key_mismatch :
    ((processStreamMessage (J.obj [("fills", J.arr [J.obj []])]) 1000 []).2.map
      (fun e => eventKey e.event) = ["|||0|fill|||"]) ∧
    ((pollAccount (fun _ => FetchResult.response 200 "ok") 2000 "0xabc"
      (Except.ok (J.arr [J.obj []]))
      ⟨(processStreamMessage (J.obj [("fills", J.arr [J.obj []])]) 1000 []).1,
        []⟩).2.1.map (fun e => eventKey e.event) = ["0xabc|||0|fill|||"]) ∧
    "|||0|fill|||" ≠ "0xabc|||0|fill|||" := by
  refine ⟨by decide, by decide, by decide⟩

/-- Claim C1 amended: cross-path dedup does hold for fills that identify
their account: when the raw fill carries no `kind` and no `address` field
of its own and its `user` field is a non-empty string that lowercases to
the (non-empty) configured account address, the stream path's normalized
event and the poll path's tagged fill produce identical fingerprints, and
the second observation within the TTL is suppressed (delivered once). -/
theorem C1_cross_path_dedup (l : List (String × J)) (u addr : String)
    (t1 t2 : Nat)
    (hkind : "kind" ∉ l.map Prod.fst)
    (haddr : "address" ∉ l.map Prod.fst)
    (huser : jget (J.obj l) "user" = J.str u)
    (hu : u ≠ "") (ha : addr ≠ "")
    (hcase : jsToLower u = jsToLower addr)
    (ht1 : t1 ≠ 0) (hwin : t2 - t1 < SEEN_TTL_MS) :
    normalize (J.obj [("fills", J.arr [J.obj l])]) =
      Except.ok [spread1 "kind" (J.str "fill") (J.obj l)] ∧
    eventKey (fixAddress (spread1 "kind" (J.str "fill") (J.obj l))) =
      eventKey (pollTag (J.obj l) addr) ∧
    (shouldEmit (fixAddress (spread1 "kind" (J.str "fill") (J.obj l)))
      t1 []).1 = true ∧
    (shouldEmit (pollTag (J.obj l) addr) t2
      (shouldEmit (fixAddress (spread1 "kind" (J.str "fill") (J.obj l)))
        t1 []).2).1 = false := by
  have htu : truthy (J.str u) = true := truthy_str_true u hu
  have hta : truthy (J.str addr) = true := truthy_str_true addr ha
  have hsp : spread1 "kind" (J.str "fill") (J.obj l) =
      J.obj (("kind", J.str "fill") :: l) := rfl
  have ha1 : jget (J.obj (("kind", J.str "fill") :: l)) "address" = J.null := by
    rw [jget_cons_ne ("kind", J.str "fill") l "address" (by decide)]
    exact jget_not_mem l "address" haddr
  have hu1 : jget (J.obj (("kind", J.str "fill") :: l)) "user" = J.str u := by
    rw [jget_cons_ne ("kind", J.str "fill") l "user" (by decide)]
    exact huser
  have hfix : fixAddress (spread1 "kind" (J.str "fill") (J.obj l)) =
      J.obj ((("kind", J.str "fill") :: l) ++ [("address", J.str u)]) := by
    rw [hsp]
    unfold fixAddress
    rw [ha1, hu1]
    simp [truthy, jsOrJ, htu, jset, hu]
  have hpoll : pollTag (J.obj l) addr =
      J.obj ((l ++ [("kind", J.str "fill")]) ++ [("address", J.str addr)]) :=
    rfl
  have hkindL : jget (J.obj (("kind", J.str "fill") ::
      (l ++ [("address", J.str u)]))) "kind" = J.str "fill" := by
    apply jget_cons_not_mem
    rw [List.map_append, List.mem_append]
    rintro (hc | hc)
    · exact hkind hc
    · simp at hc
  have hkey : eventKey (fixAddress (spread1 "kind" (J.str "fill")
      (J.obj l))) = eventKey (pollTag (J.obj l) addr) := by
    rw [hfix, hpoll]
    simp [eventKey, hkindL, jget_append_last, jget_append_ne,
      jget_cons_ne, jget_append_two_ne, jget_append_two_fst,
      jget_append_two_snd, jsOrJ, htu, hta, truthy, jstr, hcase, hu, ha]
  refine ⟨rfl, hkey, shouldEmit_fst_empty_cache _ t1, ?_⟩
  have hes := shouldEmit_none (fixAddress (spread1 "kind" (J.str "fill")
    (J.obj l))) t1 [] (eventKey_ne_empty _) rfl
  have hl : mget ((shouldEmit (fixAddress (spread1 "kind" (J.str "fill")
      (J.obj l))) t1 []).2) (eventKey (pollTag (J.obj l) addr)) =
      some t1 := by
    rw [hes, ← hkey]
    exact mget_mapSet_self []
      (eventKey (fixAddress (spread1 "kind" (J.str "fill") (J.obj l)))) t1
  have h2 := shouldEmit_some (pollTag (J.obj l) addr) t2
    ((shouldEmit (fixAddress (spread1 "kind" (J.str "fill") (J.obj l)))
      t1 []).2) t1 (eventKey_ne_empty _) hl
  rw [if_pos ⟨ht1, hwin⟩] at h2
  simp only [h2]

/-- Claim C1 amended witness: the fill `(user: '0xAbC', time: 7)` relayed
through the stream path and polled for the configured account `0xabc`
fingerprints identically on both paths and is delivered only once. -/
theorem C1_cross_path_dedup_witness :
    (normalize (J.obj [("fills", J.arr [J.obj [("user", J.str "0xAbC"),
        ("time", J.num 7)]])]) =
      Except.ok [spread1 "kind" (J.str "fill")
        (J.obj [("user", J.str "0xAbC"), ("time", J.num 7)])]) ∧
    (eventKey (fixAddress (spread1 "kind" (J.str "fill")
        (J.obj [("user", J.str "0xAbC"), ("time", J.num 7)]))) =
      eventKey (pollTag (J.obj [("user", J.str "0xAbC"), ("time", J.num 7)])
        "0xabc")) ∧
    ((shouldEmit (fixAddress (spread1 "kind" (J.str "fill")
        (J.obj [("user", J.str "0xAbC"), ("time", J.num 7)]))) 1000 []).1 =
      true) ∧
    ((shouldEmit (pollTag (J.obj [("user", J.str "0xAbC"),
        ("time", J.num 7)]) "0xabc") 2000
      (shouldEmit (fixAddress (spread1 "kind" (J.str "fill")
        (J.obj [("user", J.str "0xAbC"), ("time", J.num 7)]))) 1000 []).2).1 =
      false) :=
  C1_cross_path_dedup [("user", J.str "0xAbC"), ("time", J.num 7)] "0xAbC"
    "0xabc" 1000 2000 (by decide) (by decide) rfl (by decide) (by decide)
    (by decide) (by decide) (by decide)

end HLRelay
